import Mathlib

/-!
Verification of the ERD-VIZ relationship-inference and graph-construction
logic (`src/erd_viz.py`) against its natural-language specification.

The script is embedded shallowly: pandas DataFrames become lists of records,
`DataFrame.filter`/`drop_duplicates`/`Series.unique` become `List.filter` and
a first-occurrence deduplication, and the streamlit selection flow becomes an
explicit pure function of the user's picks (a `selectbox` over an empty option
list yields `none`, modelling streamlit returning Python `None`; a pandas
comparison of a column against `None` matches no row; `.iloc[0]` on an empty
frame, which raises `IndexError`, is modelled as `Option.head? = none`).
-/

namespace ErdViz

/-- One row of the schema CSV: columns `Table`, `Column`, `Data Type`. -/
structure ColumnRecord where
  table : String
  column : String
  dataType : String
deriving DecidableEq, Repr

/-- An inferred relationship row, as appended at lines 27-32 of `erd_viz.py`. -/
structure Relationship where
  from_table : String
  from_column : String
  to_table : String
  to_column : String
deriving DecidableEq, Repr

/-- A directed, labeled edge handed to the graphviz renderer. -/
structure Edge where
  src : String
  dst : String
  label : String
deriving DecidableEq, Repr

/-- Accumulator loop for `dropDuplicates`: `seen` holds the already-emitted
elements. -/
def dropDuplicatesAux [DecidableEq α] (seen : List α) : List α → List α
  | [] => []
  | a :: l =>
    if a ∈ seen then dropDuplicatesAux seen l
    else a :: dropDuplicatesAux (a :: seen) l

/-- pandas `drop_duplicates` / `Series.unique`: keep the first occurrence of
each element, preserving order of first appearance. -/
def dropDuplicates [DecidableEq α] (l : List α) : List α :=
  dropDuplicatesAux [] l

/-- Line 19: `df[df['Data Type'] == 'uniqueidentifier']`. -/
def dfUniqueidentifier (catalog : List ColumnRecord) : List ColumnRecord :=
  catalog.filter (fun r => r.dataType == "uniqueidentifier")

/-- Lines 22-32: for every identifier-typed row, emit a directed relationship
to every identifier-typed row with the same column name in a different
table. -/
def connections (catalog : List ColumnRecord) : List Relationship :=
  (dfUniqueidentifier catalog).flatMap (fun row =>
    ((dfUniqueidentifier catalog).filter
        (fun m => m.column == row.column && m.table != row.table)).map
      (fun m => { from_table := row.table, from_column := row.column,
                  to_table := m.table, to_column := m.column }))

/-- Line 35: `pd.DataFrame(connections).drop_duplicates()`. -/
def connections_df (catalog : List ColumnRecord) : List Relationship :=
  dropDuplicates (connections catalog)

/-- Lines 50 and 65: rows whose `from_table` or `to_table` equals the chosen
table (`filtered_connections` in ByTable mode, `filtered_connections_1` in
ByColumn mode). -/
def by_table (conns : List Relationship) (t : String) : List Relationship :=
  conns.filter (fun r => r.from_table == t || r.to_table == t)

/-- Lines 66 and 84: `filtered_connections['to_table'].unique()` over the
table-filtered rows. -/
def joinable_tables (conns : List Relationship) (t : String) : List String :=
  dropDuplicates ((by_table conns t).map (fun r => r.to_table))

/-- Line 58: distinct tables holding an identifier-typed column of the chosen
name. -/
def tables_with_column (catalog : List ColumnRecord) (c : String) : List String :=
  dropDuplicates
    (((dfUniqueidentifier catalog).filter (fun a => a.column == c)).map
      (fun a => a.table))

/-- Line 65: ByColumn-mode candidate set after the first table pick — filtered
by the chosen table only. -/
def filtered_connections_1 (conns : List Relationship) (t₁ : String) : List Relationship :=
  conns.filter (fun r => r.from_table == t₁ || r.to_table == t₁)

/-- Lines 96 and 103: the display key
`"{from_table} ({from_column}) -> {to_table} ({to_column})"`. -/
def relationship_key (r : Relationship) : String :=
  r.from_table ++ " (" ++ r.from_column ++ ") -> " ++ r.to_table ++ " (" ++ r.to_column ++ ")"

/-- pandas comparison of a string cell against a selectbox result: comparing
against Python `None` is `False` for every row. -/
def optEq (a : String) (b : Option String) : Bool :=
  match b with
  | some s => a == s
  | none => false

/-- Models `st.selectbox`: the user's pick must be one of the options
(otherwise the widget default, the first option, stands); an empty option list
yields `none` — streamlit returns Python `None`. -/
def selectbox (options : List String) (pick : String) : Option String :=
  if pick ∈ options then some pick else options.head?

/-- Lines 101-106: the first row whose display key equals the chosen string;
`none` models the `IndexError` that `.iloc[0]` raises when no row matches. -/
def selected_row (filtered : List Relationship) (sel : Option String) : Option Relationship :=
  (filtered.filter (fun r => optEq (relationship_key r) sel)).head?

/-- ByTable flow, lines 44-50 and 83-106, as a pure function of the user's
picks: second-table pick, then relationship pick. -/
def byTable_resolve (conns : List Relationship) (t : String)
    (pick₂ pickRel : String) : Option Relationship :=
  let filtered₀ := by_table conns t
  let selected_to := selectbox (joinable_tables conns t) pick₂
  let filtered := filtered₀.filter (fun r => optEq r.to_table selected_to)
  let sel := selectbox (filtered.map relationship_key) pickRel
  selected_row filtered sel

/-- ByColumn flow, lines 51-78 and 94-106, as a pure function of the user's
picks: first-table pick, second-table pick, then relationship pick. -/
def byColumn_resolve (catalog : List ColumnRecord) (c : String)
    (pick₁ pick₂ pickRel : String) : Option Relationship :=
  let conns := connections_df catalog
  let selected₁ := selectbox (tables_with_column catalog c) pick₁
  let f₁ := conns.filter
    (fun r => optEq r.from_table selected₁ || optEq r.to_table selected₁)
  let joinable := dropDuplicates (f₁.map (fun r => r.to_table))
  let selected₂ := selectbox joinable pick₂
  let filtered := f₁.filter
    (fun r => optEq r.to_table selected₂ || optEq r.from_table selected₂)
  let sel := selectbox (filtered.map relationship_key) pickRel
  selected_row filtered sel

/-- Line 150: relationships whose `from_table` equals the seed's `to_table`. -/
def downstream_connections (conns : List Relationship) (t : String) : List Relationship :=
  conns.filter (fun r => r.from_table == t)

/-- Lines 145-156: nodes of the relationship graph — the seed's two tables and
every downstream `to_table`. -/
def relationship_graph_nodes (r : Relationship) (downstream : List Relationship) : List String :=
  r.from_table :: r.to_table :: downstream.map (fun d => d.to_table)

/-- Lines 147 and 157: edges of the relationship graph. The seed edge is
labeled `"{from_column} → {to_column}"`; each downstream edge is labeled
`f"{to_column} → {downstream_column}"` where `to_column` is the SEED's
to_column (line 111) and `downstream_column` is the downstream row's
to_column (line 155). -/
def relationship_graph_edges (r : Relationship) (downstream : List Relationship) : List Edge :=
  { src := r.from_table, dst := r.to_table,
    label := r.from_column ++ " → " ++ r.to_column } ::
  downstream.map (fun d =>
    { src := r.to_table, dst := d.to_table,
      label := r.to_column ++ " → " ++ d.to_column })

/-- Lines 120-122: nodes of the joinable-tables view — the anchor is always
emitted, then one node per joinable table. -/
def joinable_tables_graph_nodes (anchor : String) (joinable : List String) : List String :=
  anchor :: joinable

/-- Line 123: one edge anchor → joinable table, labeled `"joins"`. -/
def joinable_tables_graph_edges (anchor : String) (joinable : List String) : List Edge :=
  joinable.map (fun t => { src := anchor, dst := t, label := "joins" })

/-- The catalog holds an identifier-typed record `(t, c)`. -/
def hasIdCol (catalog : List ColumnRecord) (t c : String) : Prop :=
  ∃ a ∈ dfUniqueidentifier catalog, a.table = t ∧ a.column = c

/-- The inferred entries whose column is `c` (every inferred entry has
`from_column = to_column`, so filtering on `from_column` captures exactly the
entries for `c`). -/
def entriesForColumn (catalog : List ColumnRecord) (c : String) : List Relationship :=
  (connections_df catalog).filter (fun r => r.from_column == c)

/-- Two tables sharing one identifier column. -/
def catalog₀ : List ColumnRecord :=
  [{ table := "A", column := "id", dataType := "uniqueidentifier" },
   { table := "B", column := "id", dataType := "uniqueidentifier" }]

/-- A single table: no relationship can be inferred. -/
def catalog₁ : List ColumnRecord :=
  [{ table := "A", column := "id", dataType := "uniqueidentifier" }]

/-- Three tables sharing one identifier column. -/
def catalog₂ : List ColumnRecord :=
  [{ table := "A", column := "id", dataType := "uniqueidentifier" },
   { table := "B", column := "id", dataType := "uniqueidentifier" },
   { table := "C", column := "id", dataType := "uniqueidentifier" }]

/-- Table `A` shares column `c` with `B` and column `d` with `C`. -/
def catalogC3 : List ColumnRecord :=
  [{ table := "A", column := "c", dataType := "uniqueidentifier" },
   { table := "B", column := "c", dataType := "uniqueidentifier" },
   { table := "A", column := "d", dataType := "uniqueidentifier" },
   { table := "C", column := "d", dataType := "uniqueidentifier" }]

/-- The worked example of spec §8: Orders/Customers/Regions. -/
def specCatalog : List ColumnRecord :=
  [{ table := "Orders", column := "CustomerID", dataType := "uniqueidentifier" },
   { table := "Customers", column := "CustomerID", dataType := "uniqueidentifier" },
   { table := "Customers", column := "RegionID", dataType := "uniqueidentifier" },
   { table := "Regions", column := "RegionID", dataType := "uniqueidentifier" }]

/-! ## Helper lemmas -/

theorem mem_dropDuplicatesAux [DecidableEq α] (seen l : List α) (x : α) :
    x ∈ dropDuplicatesAux seen l ↔ x ∈ l ∧ x ∉ seen := by
  induction l generalizing seen with
  | nil => simp [dropDuplicatesAux]
  | cons a l ih =>
    by_cases h : a ∈ seen
    · rw [dropDuplicatesAux, if_pos h, ih, List.mem_cons]
      constructor
      · rintro ⟨h1, h2⟩
        exact ⟨Or.inr h1, h2⟩
      · rintro ⟨h1 | h1, h2⟩
        · exact absurd (h1 ▸ h) h2
        · exact ⟨h1, h2⟩
    · rw [dropDuplicatesAux, if_neg h]
      simp only [List.mem_cons, ih]
      by_cases hx : x = a
      · subst hx
        simp [h]
      · simp [hx]

theorem mem_dropDuplicates [DecidableEq α] {l : List α} {x : α} :
    x ∈ dropDuplicates l ↔ x ∈ l := by
  rw [dropDuplicates, mem_dropDuplicatesAux]
  simp

theorem nodup_dropDuplicatesAux [DecidableEq α] (seen l : List α) :
    (dropDuplicatesAux seen l).Nodup := by
  induction l generalizing seen with
  | nil => simp [dropDuplicatesAux]
  | cons a l ih =>
    by_cases h : a ∈ seen
    · rw [dropDuplicatesAux, if_pos h]
      exact ih seen
    · rw [dropDuplicatesAux, if_neg h, List.nodup_cons]
      refine ⟨fun hmem => ?_, ih (a :: seen)⟩
      exact ((mem_dropDuplicatesAux (a :: seen) l a).1 hmem).2 (List.mem_cons_self a seen)

theorem nodup_dropDuplicates [DecidableEq α] (l : List α) :
    (dropDuplicates l).Nodup :=
  nodup_dropDuplicatesAux [] l

theorem toFinset_dropDuplicates [DecidableEq α] (l : List α) :
    (dropDuplicates l).toFinset = l.toFinset := by
  ext x
  simp [mem_dropDuplicates]

theorem length_dropDuplicates [DecidableEq α] (l : List α) :
    (dropDuplicates l).length = l.toFinset.card := by
  rw [← List.toFinset_card_of_nodup (nodup_dropDuplicates l), toFinset_dropDuplicates]

theorem mem_connections {catalog : List ColumnRecord} {r : Relationship} :
    r ∈ connections catalog ↔
      hasIdCol catalog r.from_table r.from_column ∧
      hasIdCol catalog r.to_table r.to_column ∧
      r.from_column = r.to_column ∧ r.from_table ≠ r.to_table := by
  simp only [connections, List.mem_flatMap, List.mem_map, List.mem_filter,
    Bool.and_eq_true, beq_iff_eq, bne_iff_ne, hasIdCol]
  constructor
  · rintro ⟨row, hrow, m, ⟨hm, hcol, htab⟩, rfl⟩
    exact ⟨⟨row, hrow, rfl, rfl⟩, ⟨m, hm, rfl, rfl⟩, hcol.symm, fun e => htab e.symm⟩
  · rintro ⟨⟨a, ha, hat, hac⟩, ⟨b, hb, hbt, hbc⟩, hcol, htab⟩
    refine ⟨a, ha, b, ⟨hb, ?_, ?_⟩, ?_⟩
    · rw [hbc, hac, hcol]
    · rw [hbt, hat]
      exact fun e => htab e.symm
    · cases r
      simp_all

theorem mem_connections_df {catalog : List ColumnRecord} {r : Relationship} :
    r ∈ connections_df catalog ↔ r ∈ connections catalog :=
  mem_dropDuplicates

/-- The inference is symmetric: if it emits `(a, c) → (b, c)` it also emits
`(b, c) → (a, c)`. -/
theorem connections_symm {catalog : List ColumnRecord} {r : Relationship}
    (h : r ∈ connections catalog) :
    ({ from_table := r.to_table, from_column := r.to_column,
       to_table := r.from_table, to_column := r.from_column } : Relationship) ∈
      connections catalog := by
  rw [mem_connections] at h ⊢
  obtain ⟨h1, h2, h3, h4⟩ := h
  exact ⟨h2, h1, h3.symm, fun e => h4 e.symm⟩

theorem mem_tables_with_column {catalog : List ColumnRecord} {c a : String} :
    a ∈ tables_with_column catalog c ↔ hasIdCol catalog a c := by
  simp only [tables_with_column, mem_dropDuplicates, List.mem_map, List.mem_filter,
    beq_iff_eq, hasIdCol]
  constructor
  · rintro ⟨rec, ⟨hrec, hc⟩, rfl⟩
    exact ⟨rec, hrec, rfl, hc⟩
  · rintro ⟨rec, hrec, rfl, hc⟩
    exact ⟨rec, ⟨hrec, hc⟩, rfl⟩

theorem mem_entriesForColumn {catalog : List ColumnRecord} {c : String} {r : Relationship} :
    r ∈ entriesForColumn catalog c ↔
      ∃ a b, a ≠ b ∧ hasIdCol catalog a c ∧ hasIdCol catalog b c ∧
        r = { from_table := a, from_column := c, to_table := b, to_column := c } := by
  simp only [entriesForColumn, List.mem_filter, mem_connections_df, mem_connections,
    beq_iff_eq]
  constructor
  · rintro ⟨⟨h1, h2, h3, h4⟩, h5⟩
    refine ⟨r.from_table, r.to_table, h4, h5 ▸ h1, ?_, ?_⟩
    · rw [← h5, h3]
      exact h2
    · cases r
      simp_all
  · rintro ⟨a, b, hab, ha, hb, rfl⟩
    exact ⟨⟨ha, hb, rfl, hab⟩, rfl⟩

theorem pairToRel_injective (c : String) :
    Function.Injective (fun p : String × String =>
      ({ from_table := p.1, from_column := c, to_table := p.2, to_column := c } :
        Relationship)) := by
  rintro ⟨a₁, b₁⟩ ⟨a₂, b₂⟩ h
  simp only [Relationship.mk.injEq] at h
  obtain ⟨h1, -, h2, -⟩ := h
  simp [h1, h2]

theorem entriesForColumn_toFinset (catalog : List ColumnRecord) (c : String) :
    (entriesForColumn catalog c).toFinset =
      (tables_with_column catalog c).toFinset.offDiag.image
        (fun p : String × String =>
          ({ from_table := p.1, from_column := c, to_table := p.2, to_column := c } :
            Relationship)) := by
  ext r
  simp only [List.mem_toFinset, mem_entriesForColumn, Finset.mem_image,
    Finset.mem_offDiag, mem_tables_with_column]
  constructor
  · rintro ⟨a, b, hab, ha, hb, rfl⟩
    exact ⟨(a, b), ⟨ha, hb, hab⟩, rfl⟩
  · rintro ⟨⟨a, b⟩, ⟨ha, hb, hab⟩, rfl⟩
    exact ⟨a, b, hab, ha, hb, rfl⟩

theorem nodup_entriesForColumn (catalog : List ColumnRecord) (c : String) :
    (entriesForColumn catalog c).Nodup :=
  (nodup_dropDuplicates (connections catalog)).filter _

theorem nodup_tables_with_column (catalog : List ColumnRecord) (c : String) :
    (tables_with_column catalog c).Nodup :=
  nodup_dropDuplicates _

theorem length_entriesForColumn (catalog : List ColumnRecord) (c : String) :
    (entriesForColumn catalog c).length =
      (tables_with_column catalog c).length * (tables_with_column catalog c).length -
        (tables_with_column catalog c).length := by
  rw [← List.toFinset_card_of_nodup (nodup_entriesForColumn catalog c),
    entriesForColumn_toFinset,
    Finset.card_image_of_injective _ (pairToRel_injective c),
    Finset.offDiag_card,
    List.toFinset_card_of_nodup (nodup_tables_with_column catalog c)]

theorem mul_self_sub_self_eq (n : ℕ) : n * n - n = n * (n - 1) := by
  cases n with
  | zero => rfl
  | succ k => rw [Nat.succ_sub_one, Nat.mul_succ, Nat.add_sub_cancel]

/-! ## Claim theorems -/

/-- C1: For every catalog in which a column name `c` of the identifier type
appears in exactly `n ≥ 2` distinct tables, the inferred relationship set
contains, for column `c`, exactly `n·(n−1)` entries, each appearing exactly
once, and they are precisely the directed relationships `(Ti, c, Tj, c)` over
ordered pairs of distinct tables containing `c` — the complete set of directed
pairs, not a star. -/
theorem C1_complete_directed_pairs (catalog : List ColumnRecord) (c : String)
    (_h : 2 ≤ (tables_with_column catalog c).length) :
    (entriesForColumn catalog c).length =
      (tables_with_column catalog c).length *
        ((tables_with_column catalog c).length - 1) ∧
    (entriesForColumn catalog c).Nodup ∧
    (∀ r : Relationship, r ∈ entriesForColumn catalog c ↔
      ∃ a b, a ≠ b ∧ hasIdCol catalog a c ∧ hasIdCol catalog b c ∧
        r = { from_table := a, from_column := c, to_table := b, to_column := c }) :=
  ⟨by rw [length_entriesForColumn, mul_self_sub_self_eq],
   nodup_entriesForColumn catalog c,
   fun _ => mem_entriesForColumn⟩

/-- C1 witness: three tables sharing column `id` yield `3·2 = 6` entries. -/
theorem C1_witness :
    (entriesForColumn catalog₂ "id").length =
      (tables_with_column catalog₂ "id").length *
        ((tables_with_column catalog₂ "id").length - 1) :=
  (C1_complete_directed_pairs catalog₂ "id" (by decide)).1

/-- C2 counterexample: in the two-table catalog, the anchor `A` itself is in
the computed joinable set for `A`, but `A` is not a `to_table` of any
relationship with `from_table = A`, so the claimed subset relation fails. -/
theorem C2_counterexample :
    "A" ∈ joinable_tables (connections_df catalog₀) "A" ∧
    "A" ∉ ((connections_df catalog₀).filter
        (fun r => r.from_table == "A")).map (fun r => r.to_table) := by
  decide

/-- C2 amended: the joinable set computed for `t` is a subset of the
`to_table` values of relationships with `from_table = t` PLUS the anchor `t`
itself (which enters through relationships where `t` is only the
`to_table`). -/
theorem C2_joinable_superset (conns : List Relationship) (t : String) :
    ∀ x ∈ joinable_tables conns t,
      x ∈ (conns.filter (fun r => r.from_table == t)).map (fun r => r.to_table) ∨
        x = t := by
  intro x hx
  rw [joinable_tables, mem_dropDuplicates] at hx
  obtain ⟨r, hr, rfl⟩ := List.mem_map.1 hx
  simp only [by_table, List.mem_filter, Bool.or_eq_true, beq_iff_eq] at hr
  obtain ⟨hmem, hft | htt⟩ := hr
  · exact Or.inl (List.mem_map.2 ⟨r, List.mem_filter.2 ⟨hmem, by simp [hft]⟩, rfl⟩)
  · exact Or.inr htt

/-- C2 witness: `B` is joinable from `A` and is a genuine from-partner. -/
theorem C2_witness :
    "B" ∈ ((connections_df catalog₀).filter
        (fun r => r.from_table == "A")).map (fun r => r.to_table) ∨
      ("B" : String) = "A" :=
  C2_joinable_superset (connections_df catalog₀) "A" "B" (by decide)

/-- C3 counterexample: column `c` appears in table `A`, yet after picking
column `c` and first table `A` the ByColumn candidate set contains the
relationship `(A, d, C, d)`, whose columns are both `d ≠ c` — a relationship
on a different column enters the candidate set. -/
theorem C3_counterexample :
    "A" ∈ tables_with_column catalogC3 "c" ∧
    ({ from_table := "A", from_column := "d", to_table := "C", to_column := "d" } :
      Relationship) ∈ filtered_connections_1 (connections_df catalogC3) "A" ∧
    ("d" : String) ≠ "c" := by
  decide

/-- C3 amended: the selected column does not restrict the ByColumn candidate
set — it is exactly the relationships with the first table on either side,
regardless of column; the second table is drawn from the unique `to_table`
values of that set (no intersection with a by-column restriction). -/
theorem C3_candidate_set (conns : List Relationship) (t₁ : String) :
    (∀ r : Relationship, r ∈ filtered_connections_1 conns t₁ ↔
      r ∈ conns ∧ (r.from_table = t₁ ∨ r.to_table = t₁)) ∧
    joinable_tables conns t₁ =
      dropDuplicates ((filtered_connections_1 conns t₁).map (fun r => r.to_table)) := by
  constructor
  · intro r
    simp [filtered_connections_1, List.mem_filter]
  · rfl

/-- C6: For every schema input (including catalogs with duplicate rows), no
entry of the generated relationship set has `from_table` equal to
`to_table`. -/
theorem C6_no_self_relationship (catalog : List ColumnRecord) (r : Relationship)
    (h : r ∈ connections_df catalog) : r.from_table ≠ r.to_table :=
  (mem_connections.1 (mem_connections_df.1 h)).2.2.2

/-- C6 witness at the two-table catalog. -/
theorem C6_witness :
    ({ from_table := "A", from_column := "id", to_table := "B", to_column := "id" } :
      Relationship).from_table ≠
    ({ from_table := "A", from_column := "id", to_table := "B", to_column := "id" } :
      Relationship).to_table :=
  C6_no_self_relationship catalog₀ _ (by decide)

/-- C10: every table that participates in at least one inferred relationship
(as `from_table` or `to_table`) appears in its own ByTable joinable-tables
set — the inference emits both directions — and consequently the
joinable-tables graph for it contains a self-loop edge labeled `joins`. -/
theorem C10_self_loop (catalog : List ColumnRecord) (t : String)
    (h : ∃ r ∈ connections_df catalog, r.from_table = t ∨ r.to_table = t) :
    t ∈ joinable_tables (connections_df catalog) t ∧
    ({ src := t, dst := t, label := "joins" } : Edge) ∈
      joinable_tables_graph_edges t (joinable_tables (connections_df catalog) t) := by
  obtain ⟨r, hr, hcase⟩ := h
  have hmem : ∃ r' ∈ connections_df catalog, r'.to_table = t := by
    rcases hcase with hft | htt
    · exact ⟨_, mem_connections_df.2 (connections_symm (mem_connections_df.1 hr)), hft⟩
    · exact ⟨r, hr, htt⟩
  obtain ⟨r', hr', hrt⟩ := hmem
  have hjoin : t ∈ joinable_tables (connections_df catalog) t := by
    rw [joinable_tables, mem_dropDuplicates]
    refine List.mem_map.2 ⟨r', ?_, hrt⟩
    rw [by_table, List.mem_filter]
    exact ⟨hr', by simp [hrt]⟩
  exact ⟨hjoin, List.mem_map.2 ⟨t, hjoin, rfl⟩⟩

/-- C10 witness: `A` participates in a relationship in the two-table catalog,
is joinable from itself, and receives a self-loop edge. -/
theorem C10_witness :
    "A" ∈ joinable_tables (connections_df catalog₀) "A" ∧
    ({ src := "A", dst := "A", label := "joins" } : Edge) ∈
      joinable_tables_graph_edges "A" (joinable_tables (connections_df catalog₀) "A") :=
  C10_self_loop catalog₀ "A" (by decide)

theorem optEq_none (a : String) : optEq a none = false := rfl

theorem optEq_some (a s : String) : optEq a (some s) = (a == s) := rfl

/-- C4: at the spec's worked example, the downstream edge Customers→Regions is
labeled with the SEED's `to_column` on the left (`CustomerID → RegionID`,
line 157 of the script), not with the downstream relationship's own column
pair `RegionID → RegionID` as the claim states. -/
theorem C4_code_eval :
    ({ src := "Customers", dst := "Regions", label := "CustomerID → RegionID" } : Edge) ∈
      relationship_graph_edges
        { from_table := "Orders", from_column := "CustomerID",
          to_table := "Customers", to_column := "CustomerID" }
        (downstream_connections (connections_df specCatalog) "Customers") ∧
    ({ src := "Customers", dst := "Regions", label := "RegionID → RegionID" } : Edge) ∉
      relationship_graph_edges
        { from_table := "Orders", from_column := "CustomerID",
          to_table := "Customers", to_column := "CustomerID" }
        (downstream_connections (connections_df specCatalog) "Customers") := by
  decide

/-- C5: when the joinable-tables set for the chosen table is empty, both
resolution flows silently fall through to `none` (the empty selection whose
`.iloc[0]` raises `IndexError` in the script) for every possible user pick —
no `NoJoinableTable` error exists in the code. -/
theorem C5_fallthrough (catalog : List ColumnRecord) (t : String)
    (h : joinable_tables (connections_df catalog) t = []) :
    (∀ pick₂ pickRel,
      byTable_resolve (connections_df catalog) t pick₂ pickRel = none) ∧
    (∀ c pick₁ pick₂ pickRel,
      selectbox (tables_with_column catalog c) pick₁ = some t →
      byColumn_resolve catalog c pick₁ pick₂ pickRel = none) := by
  constructor
  · intro pick₂ pickRel
    simp only [byTable_resolve, h, selectbox, List.not_mem_nil, if_false,
      List.head?_nil, optEq_none, List.filter_false, List.map_nil, selected_row]
  · intro c pick₁ pick₂ pickRel hsel
    have h' : dropDuplicates
        (((connections_df catalog).filter
          (fun r => r.from_table == t || r.to_table == t)).map
            (fun r => r.to_table)) = [] := h
    simp only [byColumn_resolve, hsel, optEq_some, h']
    simp only [selectbox, List.not_mem_nil, if_false, List.head?_nil,
      optEq_none, Bool.or_self, List.filter_false, List.map_nil, selected_row]

/-- C5 witness: a one-table catalog has an empty joinable set for `A`, and
both flows yield `none`. -/
theorem C5_witness :
    byTable_resolve (connections_df catalog₁) "A" "B" "x" = none ∧
    byColumn_resolve catalog₁ "id" "A" "B" "x" = none :=
  ⟨(C5_fallthrough catalog₁ "A" (by decide)).1 "B" "x",
   (C5_fallthrough catalog₁ "A" (by decide)).2 "id" "A" "B" "x" (by decide)⟩

/-- C7 counterexample: the seed edge of the relationship graph originates from
the seed's `from_table` (`Orders`), which is not the seed's `to_table`
(`Customers`), so "no edge originates from a node that is not the immediate
to_table of the seed" fails as stated. -/
theorem C7_counterexample :
    ({ src := "Orders", dst := "Customers", label := "CustomerID → CustomerID" } : Edge) ∈
      relationship_graph_edges
        { from_table := "Orders", from_column := "CustomerID",
          to_table := "Customers", to_column := "CustomerID" }
        (downstream_connections (connections_df specCatalog) "Customers") ∧
    ("Orders" : String) ≠ "Customers" := by
  decide

/-- C7 amended: one-hop depth — every edge of the relationship graph
originates either from the seed's `from_table` (the seed edge itself) or from
the seed's `to_table` (the downstream edges); no edge ever originates from a
downstream relationship's `to_table` node, so no transitive expansion
occurs. -/
theorem C7_one_hop (r : Relationship) (ds : List Relationship) :
    ∀ e ∈ relationship_graph_edges r ds,
      e.src = r.from_table ∨ e.src = r.to_table := by
  intro e he
  rw [relationship_graph_edges, List.mem_cons] at he
  rcases he with rfl | he
  · exact Or.inl rfl
  · obtain ⟨d, -, rfl⟩ := List.mem_map.1 he
    exact Or.inr rfl

/-- C7 witness at the spec's worked example. -/
theorem C7_witness :
    ({ src := "Orders", dst := "Customers", label := "CustomerID → CustomerID" } : Edge).src =
      ({ from_table := "Orders", from_column := "CustomerID",
         to_table := "Customers", to_column := "CustomerID" } : Relationship).from_table ∨
    ({ src := "Orders", dst := "Customers", label := "CustomerID → CustomerID" } : Edge).src =
      ({ from_table := "Orders", from_column := "CustomerID",
         to_table := "Customers", to_column := "CustomerID" } : Relationship).to_table :=
  C7_one_hop _ (downstream_connections (connections_df specCatalog) "Customers") _
    (by decide)

/-- C8: resolution matches the chosen string exactly and case-sensitively
against the generated display key; when the chosen string differs only in
case, no row matches and the lookup comes up empty (`none`, i.e. the
`IndexError` that `.iloc[0]` raises) — the code has no `NoMatchingRelationship`
error. -/
theorem C8_code_eval :
    relationship_key
        { from_table := "A", from_column := "id", to_table := "B", to_column := "id" } =
      "A (id) -> B (id)" ∧
    selected_row
        [{ from_table := "A", from_column := "id", to_table := "B", to_column := "id" }]
        (some "A (id) -> B (id)") =
      some { from_table := "A", from_column := "id", to_table := "B", to_column := "id" } ∧
    selected_row
        [{ from_table := "A", from_column := "id", to_table := "B", to_column := "id" }]
        (some "A (ID) -> B (ID)") = none := by
  decide

/-- C9 counterexample: with an empty joinable set the joinable-tables view
still emits the anchor node — the node list is `["A"]`, not empty. -/
theorem C9_counterexample :
    joinable_tables_graph_nodes "A" [] = ["A"] ∧
    joinable_tables_graph_nodes "A" [] ≠ [] := by
  decide

/-- C9 amended: with an empty joinable set the component produces the anchor
node alone and no edges (and, being a total function, never errors). -/
theorem C9_empty_joinable (anchor : String) :
    joinable_tables_graph_nodes anchor [] = [anchor] ∧
    joinable_tables_graph_edges anchor [] = [] :=
  ⟨rfl, rfl⟩

end ErdViz
